import Mathlib

/-!
Verification of the boundary-crossing notification scheduler of
SilliReminder (`src/app.rs`, `src/db_operations/`).

Modelling choices:
- Calendar dates (`chrono::NaiveDate`) are modelled as integers counting
  days, so `(date - today).num_days()` becomes plain `Int` subtraction.
- `u8` levels are modelled as `Nat` and the stored `i64` `notified_level`
  as `Int`; all level arithmetic stays inside `[0, 3]`, far from any
  machine-width boundary, so no modular reduction is needed.
- The SQLite store is a list of rows; `ORDER BY date ASC, id ASC` is
  modelled by insertion sort with the same key.  Dates are stored already
  parsed, so the date-parsing failure path of `list_reminders` does not
  arise in the model.
- Whether the `UPDATE` in `set_reminder_notified_level` succeeds for a
  given reminder id is abstracted by a predicate `persistOk`; the code
  only logs a failure and keeps going.
- The real-time gate (`next_boundary_check : Instant`) at the top of
  `maybe_check_boundary_notifications` is wall-clock throttling; the model
  is the detector body that runs once the gate opens, with `today` passed
  explicitly (the code reads `Local::now().date_naive()`).
-/

/-- A row of the `Reminder` SQLite table (`db_operations/schema.rs`):
`id` is the INTEGER PRIMARY KEY, `date` the stored calendar date (as a day
number), `notified_level` the persisted i64, which may hold any integer. -/
structure Row where
  id : Int
  date : Int
  note : String
  notified_level : Int
deriving DecidableEq

/-- In-memory reminder as produced by `list_reminders`
(`db_operations/queries.rs`): `notified_level` is the stored value clamped
by `i64::clamp(0, 3)` and cast to `u8`. -/
structure Reminder where
  id : Int
  date : Int
  note : String
  notified_level : Nat
deriving DecidableEq

/-- `BoundaryNotification` (`app.rs`): an ephemeral pending notification. -/
structure BoundaryNotification where
  date : Int
  note : String
  level : Nat
deriving DecidableEq

/-- `notified_level.clamp(0, 3) as u8` (`queries.rs`). -/
def clampLevel (x : Int) : Nat := (max 0 (min x 3)).toNat

/-- The `ORDER BY date ASC, id ASC` ordering of the SELECT in
`queries.rs`. -/
def rowLe (a b : Row) : Prop :=
  a.date < b.date ∨ (a.date = b.date ∧ a.id ≤ b.id)

instance : DecidableRel rowLe := fun a b => by
  unfold rowLe
  exact inferInstance

instance : IsTotal Row rowLe := by
  constructor
  intro a b
  unfold rowLe
  omega

instance : IsTrans Row rowLe := by
  constructor
  intro a b c
  unfold rowLe
  omega

/-- Conversion of a stored row to the in-memory `Reminder` performed by the
`query_map` closure in `list_reminders` (`queries.rs`). -/
def rowToReminder (r : Row) : Reminder :=
  { id := r.id, date := r.date, note := r.note,
    notified_level := clampLevel r.notified_level }

/-- `list_reminders` (`queries.rs`): SELECT all rows ordered by
`(date, id)`, clamping each `notified_level` into `[0, 3]`. -/
def list_reminders (store : List Row) : List Reminder :=
  (List.insertionSort rowLe store).map rowToReminder

/-- `set_reminder_notified_level` (`db_operations/update.rs`): clamp the
u8 level with `min 3`, then `UPDATE Reminder SET notified_level WHERE id`. -/
def set_reminder_notified_level (store : List Row) (id : Int)
    (notified_level : Nat) : List Row :=
  store.map (fun row =>
    if row.id = id then
      { row with notified_level := ((min notified_level 3 : Nat) : Int) }
    else row)

/-- `SilliReminder::urgency_level` (`app.rs` lines 81-92). -/
def urgency_level (today date : Int) : Nat :=
  let days_until := date - today
  if days_until ≤ 1 then 3
  else if days_until ≤ 3 then 2
  else if days_until ≤ 7 then 1
  else 0

/-- The enqueue loop range `for level in (previous_level + 1)..=current_level`
with its `if level == 0 { continue }` skip (`app.rs` lines 130-139). -/
def boundaryLevels (previous current : Nat) : List Nat :=
  (List.range' (previous + 1) (current - previous)).filter (fun level => level != 0)

/-- The per-reminder body of the detector loop
(`maybe_check_boundary_notifications`, `app.rs` lines 120-144): compute the
current urgency, clamp the persisted level, skip when no boundary was
crossed, otherwise enqueue every crossed level in ascending order and then
try to persist the new level (`persistOk` tells whether the UPDATE for
that id succeeds; a failure is only logged). -/
def processReminder (today : Int) (persistOk : Int → Bool)
    (store : List Row) (queue : List BoundaryNotification) (r : Reminder) :
    List Row × List BoundaryNotification :=
  let current_level := urgency_level today r.date
  let previous_level := min r.notified_level 3
  if current_level ≤ previous_level then (store, queue)
  else
    let queue2 := queue ++ (boundaryLevels previous_level current_level).map
      (fun level => { date := r.date, note := r.note, level := level })
    if persistOk r.id then
      (set_reminder_notified_level store r.id current_level, queue2)
    else
      (store, queue2)

/-- The detector's `for r in reminders` loop over the listed snapshot. -/
def runDetector (today : Int) (persistOk : Int → Bool) :
    List Reminder → List Row → List BoundaryNotification →
    List Row × List BoundaryNotification
  | [], store, queue => (store, queue)
  | r :: rest, store, queue =>
    let p := processReminder today persistOk store queue r
    runDetector today persistOk rest p.1 p.2

/-- One detector tick (`maybe_check_boundary_notifications`, `app.rs`
lines 94-145), past the wall-clock gate: when the database handle is
absent the tick returns at once; otherwise it lists the reminders and
runs the detector loop over that snapshot. -/
def maybe_check_boundary_notifications (today : Int) (persistOk : Int → Bool)
    (db : Option (List Row)) (queue : List BoundaryNotification) :
    Option (List Row) × List BoundaryNotification :=
  match db with
  | none => (none, queue)
  | some store =>
    let p := runDetector today persistOk (list_reminders store) store queue
    (some p.1, p.2)

/-- The database-handle field set up by `SilliReminder::new` (`app.rs`
lines 55-79): `Ok` from `get_db` becomes `Some`, an error is logged and
becomes `None`. -/
def new_db (opened : Except String (List Row)) : Option (List Row) :=
  match opened with
  | Except.ok db => some db
  | Except.error _ => none

/-- The `Language` enum of `i18n.rs` (renamed: Mathlib already has a root-level `Language`). -/
inductive UiLanguage
  | Pl
  | En
deriving DecidableEq

/-- `TrayNotificationKind` (`tray.rs`). -/
inductive TrayNotificationKind
  | Info
  | Warning
  | Error
deriving DecidableEq

/-- `i18n::notif_prefix`. -/
def notif_prefix (lang : UiLanguage) (level : Nat) : String :=
  match lang, level with
  | UiLanguage.Pl, 1 => "≤ 7 dni"
  | UiLanguage.Pl, 2 => "≤ 3 dni"
  | UiLanguage.Pl, _ => "≤ 1 dzień"
  | UiLanguage.En, 1 => "≤ 7 days"
  | UiLanguage.En, 2 => "≤ 3 days"
  | UiLanguage.En, _ => "≤ 1 day"

/-- `i18n::notif_title`. -/
def notif_title (lang : UiLanguage) (level : Nat) : String :=
  match lang with
  | UiLanguage.Pl => "Przypomnienie (" ++ notif_prefix lang level ++ ")"
  | UiLanguage.En => "Reminder (" ++ notif_prefix lang level ++ ")"

/-- `i18n::notif_date_label`. -/
def notif_date_label (lang : UiLanguage) : String :=
  match lang with
  | UiLanguage.Pl => "Data"
  | UiLanguage.En => "Date"

/-- One `tray::notify(title, body, kind)` call as recorded by the model. -/
structure TrayMessage where
  title : String
  body : String
  kind : TrayNotificationKind
deriving DecidableEq

/-- The `match n.level` severity mapping inside
`dispatch_notifications_to_tray` (`app.rs` lines 149-153). -/
def tray_kind_of_level (level : Nat) : TrayNotificationKind :=
  match level with
  | 1 => TrayNotificationKind.Info
  | 2 => TrayNotificationKind.Warning
  | _ => TrayNotificationKind.Error

/-- The body `format!` of a dispatched notification (`app.rs` lines
156-161): the note, a newline, the localized date label, and the date. -/
def notifBody (lang : UiLanguage) (n : BoundaryNotification) : String :=
  n.note ++ "\n" ++ notif_date_label lang ++ ": " ++ toString n.date

/-- `SilliReminder::dispatch_notifications_to_tray` (`app.rs` lines
147-164): pop the queue from the front until empty, emitting one tray
notification per item. -/
def dispatch_notifications_to_tray (lang : UiLanguage) :
    List BoundaryNotification → List TrayMessage
  | [] => []
  | n :: rest =>
    { title := notif_title lang n.level,
      body := notifBody lang n,
      kind := tray_kind_of_level n.level } :: dispatch_notifications_to_tray lang rest

/-- C2: the classifier is a pure function of `days_until = due - today`,
with buckets `≤ 1 → 3`, `[2,3] → 2`, `[4,7] → 1`, `> 7 → 0`, and never
exceeds level 3. -/
theorem urgency_level_classifier_correct (today date t2 d2 : Int) :
    (d2 - t2 = date - today → urgency_level t2 d2 = urgency_level today date) ∧
    (date - today ≤ 1 → urgency_level today date = 3) ∧
    (2 ≤ date - today ∧ date - today ≤ 3 → urgency_level today date = 2) ∧
    (4 ≤ date - today ∧ date - today ≤ 7 → urgency_level today date = 1) ∧
    (7 < date - today → urgency_level today date = 0) ∧
    urgency_level today date ≤ 3 := by
  refine ⟨?_, ?_, ?_, ?_, ?_, ?_⟩ <;>
    simp only [urgency_level] <;> intros <;> split_ifs <;> omega

/-- Witness for C2 at the boundary inputs. -/
theorem urgency_level_classifier_correct_witness :
    urgency_level 0 (-5) = 3 ∧ urgency_level 0 1 = 3 ∧ urgency_level 0 2 = 2 ∧
    urgency_level 0 3 = 2 ∧ urgency_level 0 4 = 1 ∧ urgency_level 0 7 = 1 ∧
    urgency_level 0 8 = 0 ∧ urgency_level 2 4 = urgency_level 0 2 :=
  ⟨(urgency_level_classifier_correct 0 (-5) 0 0).2.1 (by norm_num),
   (urgency_level_classifier_correct 0 1 0 0).2.1 (by norm_num),
   (urgency_level_classifier_correct 0 2 0 0).2.2.1 (by norm_num),
   (urgency_level_classifier_correct 0 3 0 0).2.2.1 (by norm_num),
   (urgency_level_classifier_correct 0 4 0 0).2.2.2.1 (by norm_num),
   (urgency_level_classifier_correct 0 7 0 0).2.2.2.1 (by norm_num),
   (urgency_level_classifier_correct 0 8 0 0).2.2.2.2.1 (by norm_num),
   (urgency_level_classifier_correct 0 2 2 4).1 (by norm_num)⟩

/-- The classifier never returns a level above 3. -/
theorem urgency_level_le_three (today date : Int) : urgency_level today date ≤ 3 := by
  simp only [urgency_level]
  split_ifs <;> omega

/-- The `level == 0` skip in the enqueue loop removes nothing: every level
in the loop range is at least `previous + 1 ≥ 1`. -/
theorem boundaryLevels_eq_range (previous current : Nat) :
    boundaryLevels previous current =
      List.range' (previous + 1) (current - previous) := by
  refine List.filter_eq_self.mpr ?_
  intro a ha
  have h1 := (List.mem_range'_1.mp ha).1
  simp only [bne_iff_ne, ne_eq]
  omega

/-- The enqueue loop iterates exactly over the integers in
`(previous, current]`. -/
theorem mem_boundaryLevels (previous current l : Nat) :
    l ∈ boundaryLevels previous current ↔ previous < l ∧ l ≤ current := by
  rw [boundaryLevels_eq_range, List.mem_range'_1]
  omega

/-- The enqueue loop range is strictly ascending. -/
theorem boundaryLevels_ascending (previous current : Nat) :
    List.Pairwise (fun a b => a < b) (boundaryLevels previous current) := by
  rw [boundaryLevels_eq_range]
  exact List.pairwise_lt_range' _ _

/-- `processReminder` when no boundary was crossed: nothing happens. -/
theorem processReminder_skip (today : Int) (persistOk : Int → Bool)
    (store : List Row) (queue : List BoundaryNotification) (r : Reminder)
    (h : urgency_level today r.date ≤ min r.notified_level 3) :
    processReminder today persistOk store queue r = (store, queue) := by
  simp only [processReminder]
  rw [if_pos h]

/-- `processReminder` on a crossing with successful persistence. -/
theorem processReminder_cross_ok (today : Int) (persistOk : Int → Bool)
    (store : List Row) (queue : List BoundaryNotification) (r : Reminder)
    (h : min r.notified_level 3 < urgency_level today r.date)
    (hok : persistOk r.id = true) :
    processReminder today persistOk store queue r =
      (set_reminder_notified_level store r.id (urgency_level today r.date),
       queue ++ (boundaryLevels (min r.notified_level 3)
           (urgency_level today r.date)).map
         (fun level => { date := r.date, note := r.note, level := level })) := by
  simp only [processReminder]
  rw [if_neg (not_le.mpr h), if_pos hok]

/-- `processReminder` on a crossing with failing persistence: the
notifications are enqueued, the store is left as it was. -/
theorem processReminder_cross_fail (today : Int) (persistOk : Int → Bool)
    (store : List Row) (queue : List BoundaryNotification) (r : Reminder)
    (h : min r.notified_level 3 < urgency_level today r.date)
    (hfail : persistOk r.id = false) :
    processReminder today persistOk store queue r =
      (store,
       queue ++ (boundaryLevels (min r.notified_level 3)
           (urgency_level today r.date)).map
         (fun level => { date := r.date, note := r.note, level := level })) := by
  simp only [processReminder]
  rw [if_neg (not_le.mpr h), if_neg (by simp [hfail])]

/-- Unfolding of the detector loop on a cons cell. -/
theorem runDetector_cons (today : Int) (persistOk : Int → Bool) (r : Reminder)
    (rest : List Reminder) (store : List Row)
    (queue : List BoundaryNotification) :
    runDetector today persistOk (r :: rest) store queue =
      runDetector today persistOk rest
        (processReminder today persistOk store queue r).1
        (processReminder today persistOk store queue r).2 := rfl

/-- The detector loop only appends to the queue: whatever was already
enqueued survives to the end of the tick. -/
theorem runDetector_queue_extends (today : Int) (persistOk : Int → Bool)
    (rs : List Reminder) :
    ∀ (store : List Row) (queue : List BoundaryNotification),
      ∃ tail, (runDetector today persistOk rs store queue).2 = queue ++ tail := by
  induction rs with
  | nil =>
    intro store queue
    exact ⟨[], by simp [runDetector]⟩
  | cons r rest ih =>
    intro store queue
    rw [runDetector_cons]
    obtain ⟨s, hs⟩ : ∃ s,
        (processReminder today persistOk store queue r).2 = queue ++ s := by
      simp only [processReminder]
      split_ifs
      · exact ⟨[], by simp⟩
      · exact ⟨_, rfl⟩
      · exact ⟨_, rfl⟩
    obtain ⟨t, ht⟩ := ih (processReminder today persistOk store queue r).1
      (processReminder today persistOk store queue r).2
    rw [ht, hs, List.append_assoc]
    exact ⟨s ++ t, rfl⟩

/-- C5: when the current urgency does not exceed the clamped previously
announced level, the tick neither enqueues a notification for that
reminder nor writes to the store for it. -/
theorem no_crossing_frame (today : Int) (persistOk : Int → Bool)
    (store : List Row) (queue : List BoundaryNotification) (r : Reminder)
    (h : urgency_level today r.date ≤ min r.notified_level 3) :
    processReminder today persistOk store queue r = (store, queue) :=
  processReminder_skip today persistOk store queue r h

/-- Witness for C5: a reminder due today already announced at level 3. -/
theorem no_crossing_frame_witness :
    processReminder 0 (fun _ => true) [⟨1, 0, "x", 3⟩] [] ⟨1, 0, "x", 3⟩ =
      ([⟨1, 0, "x", 3⟩], []) :=
  no_crossing_frame 0 (fun _ => true) [⟨1, 0, "x", 3⟩] [] ⟨1, 0, "x", 3⟩
    (by decide)

/-- C9: when the database could not be opened at startup the handle is
`None`, and a detector tick with an absent handle returns immediately,
listing nothing and enqueuing nothing. -/
theorem store_unavailable_degraded (today : Int) (persistOk : Int → Bool)
    (queue : List BoundaryNotification) (err : String) :
    new_db (Except.error err) = none ∧
    maybe_check_boundary_notifications today persistOk
        (new_db (Except.error err)) queue = (none, queue) :=
  ⟨rfl, rfl⟩

/-- C1: on a crossing (`previous < current`) whose persistence succeeds,
the per-reminder detector step appends exactly one pending notification
`(date, note, level)` for each level in the loop list, that list
enumerates precisely the integers in `(previous, current]` in strictly
ascending order, and the store afterwards holds
`notified_level = current` for that reminder's id. -/
theorem no_skip_boundary_crossing (today : Int) (persistOk : Int → Bool)
    (store : List Row) (queue : List BoundaryNotification) (r : Reminder)
    (hcross : min r.notified_level 3 < urgency_level today r.date)
    (hok : persistOk r.id = true) :
    processReminder today persistOk store queue r =
      (set_reminder_notified_level store r.id (urgency_level today r.date),
       queue ++ (boundaryLevels (min r.notified_level 3)
           (urgency_level today r.date)).map
         (fun level => { date := r.date, note := r.note, level := level })) ∧
    (∀ l, l ∈ boundaryLevels (min r.notified_level 3)
        (urgency_level today r.date) ↔
        min r.notified_level 3 < l ∧ l ≤ urgency_level today r.date) ∧
    List.Pairwise (fun a b => a < b)
      (boundaryLevels (min r.notified_level 3) (urgency_level today r.date)) ∧
    (∀ row ∈ set_reminder_notified_level store r.id
        (urgency_level today r.date),
        row.id = r.id →
          row.notified_level = (urgency_level today r.date : Int)) := by
  refine ⟨processReminder_cross_ok _ _ _ _ _ hcross hok,
    fun l => mem_boundaryLevels _ _ l, boundaryLevels_ascending _ _, ?_⟩
  intro row hrow hid
  simp only [set_reminder_notified_level, List.mem_map] at hrow
  obtain ⟨orig, _, heq⟩ := hrow
  by_cases hoid : orig.id = r.id
  · rw [if_pos hoid] at heq
    subst heq
    have h3 := urgency_level_le_three today r.date
    show ((min (urgency_level today r.date) 3 : Nat) : Int) = _
    norm_cast
    omega
  · rw [if_neg hoid] at heq
    subst heq
    exact absurd hid hoid

/-- Witness for C1: `previous = 0`, due today (`current = 3`) enqueues the
levels 1, 2, 3 in that order and persists level 3. -/
theorem no_skip_boundary_crossing_witness :
    processReminder 0 (fun _ => true) [⟨1, 0, "x", 0⟩] [] ⟨1, 0, "x", 0⟩ =
      ([⟨1, 0, "x", 3⟩], [⟨0, "x", 1⟩, ⟨0, "x", 2⟩, ⟨0, "x", 3⟩]) := by
  have h := (no_skip_boundary_crossing 0 (fun _ => true) [⟨1, 0, "x", 0⟩] []
    ⟨1, 0, "x", 0⟩ (by decide) rfl).1
  rw [h]
  decide

/-- C6: on a crossing whose persistence fails, the notifications were
already enqueued before the write was attempted, so they stay in the
queue; the store keeps its old level for that reminder; the loop carries
on with the remaining reminders instead of aborting; and everything
enqueued during the tick is still in the queue at the end of the tick,
ready for dispatch. -/
theorem store_write_failure_bias (today : Int) (persistOk : Int → Bool)
    (store : List Row) (queue : List BoundaryNotification) (r : Reminder)
    (rest : List Reminder)
    (hcross : min r.notified_level 3 < urgency_level today r.date)
    (hfail : persistOk r.id = false) :
    processReminder today persistOk store queue r =
      (store,
       queue ++ (boundaryLevels (min r.notified_level 3)
           (urgency_level today r.date)).map
         (fun level => { date := r.date, note := r.note, level := level })) ∧
    runDetector today persistOk (r :: rest) store queue =
      runDetector today persistOk rest store
        (queue ++ (boundaryLevels (min r.notified_level 3)
            (urgency_level today r.date)).map
          (fun level => { date := r.date, note := r.note, level := level })) ∧
    (∃ tail,
        (runDetector today persistOk (r :: rest) store queue).2 =
          queue ++ tail) := by
  have hp := processReminder_cross_fail today persistOk store queue r hcross hfail
  refine ⟨hp, ?_, ?_⟩
  · rw [runDetector_cons, hp]
  · exact runDetector_queue_extends today persistOk (r :: rest) store queue

/-- Witness for C6: persistence fails, the three notifications are still
enqueued and the stored level stays 0. -/
theorem store_write_failure_bias_witness :
    processReminder 0 (fun _ => false) [⟨1, 0, "x", 0⟩] [] ⟨1, 0, "x", 0⟩ =
      ([⟨1, 0, "x", 0⟩], [⟨0, "x", 1⟩, ⟨0, "x", 2⟩, ⟨0, "x", 3⟩]) := by
  have h := (store_write_failure_bias 0 (fun _ => false) [⟨1, 0, "x", 0⟩] []
    ⟨1, 0, "x", 0⟩ [] (by decide) rfl).1
  rw [h]
  decide

/-- Every notification the detector loop ever appends carries a level in
`[1, 3]`. -/
theorem runDetector_queue_levels (today : Int) (persistOk : Int → Bool)
    (rs : List Reminder) :
    ∀ (store : List Row) (queue : List BoundaryNotification),
      ∀ n ∈ (runDetector today persistOk rs store queue).2,
        n ∈ queue ∨ (1 ≤ n.level ∧ n.level ≤ 3) := by
  induction rs with
  | nil =>
    intro store queue n hn
    exact Or.inl hn
  | cons r rest ih =>
    intro store queue n hn
    rw [runDetector_cons] at hn
    rcases ih _ _ n hn with h2 | h2
    · by_cases hc : urgency_level today r.date ≤ min r.notified_level 3
      · rw [processReminder_skip _ _ _ _ _ hc] at h2
        exact Or.inl h2
      · push_neg at hc
        have hq2 : (processReminder today persistOk store queue r).2 =
            queue ++ (boundaryLevels (min r.notified_level 3)
                (urgency_level today r.date)).map
              (fun level => { date := r.date, note := r.note, level := level }) := by
          simp only [processReminder]
          rw [if_neg (not_le.mpr hc)]
          split_ifs <;> rfl
        rw [hq2] at h2
        rcases List.mem_append.mp h2 with h3 | h3
        · exact Or.inl h3
        · obtain ⟨l, hl, rfl⟩ := List.mem_map.mp h3
          have hb := (mem_boundaryLevels _ _ l).mp hl
          have hu := urgency_level_le_three today r.date
          exact Or.inr ⟨by show 1 ≤ l; omega, by show l ≤ 3; omega⟩
    · exact Or.inr h2

/-- C10: every pending notification a tick enqueues has level in
`{1, 2, 3}`, and the `level == 0` skip inside the enqueue loop is
unreachable: the filter removes nothing from the loop range, for every
clamped previous level and every current level. -/
theorem enqueued_levels_in_range (today : Int) (persistOk : Int → Bool)
    (db : Option (List Row)) (queue : List BoundaryNotification) :
    (∀ n ∈ (maybe_check_boundary_notifications today persistOk db queue).2,
        n ∈ queue ∨ (1 ≤ n.level ∧ n.level ≤ 3)) ∧
    (∀ previous current : Nat,
        boundaryLevels previous current =
          List.range' (previous + 1) (current - previous)) := by
  constructor
  · cases db with
    | none => intro n hn; exact Or.inl hn
    | some store =>
      intro n hn
      exact runDetector_queue_levels today persistOk (list_reminders store)
        store queue n hn
  · exact boundaryLevels_eq_range

/-- Witness for C10: the first notification of a fresh crossing to level 3
has level 1, inside `[1, 3]`. -/
theorem enqueued_levels_in_range_witness :
    (⟨0, "x", 1⟩ : BoundaryNotification) ∈ ([] : List BoundaryNotification) ∨
      (1 ≤ (⟨0, "x", 1⟩ : BoundaryNotification).level ∧
        (⟨0, "x", 1⟩ : BoundaryNotification).level ≤ 3) :=
  (enqueued_levels_in_range 0 (fun _ => true) (some [⟨1, 0, "x", 0⟩]) []).1
    ⟨0, "x", 1⟩ (by decide)

/-- C8: listing never drops a row whatever integer is stored in
`notified_level`; every listed reminder carries a level already clamped
into `[0, 3]` (so the detector's additional `min _ 3` is the identity on
it), and each stored row reappears with exactly the clamped value. -/
theorem invalid_persisted_level_clamped (store : List Row) :
    (list_reminders store).length = store.length ∧
    (∀ rem ∈ list_reminders store,
        rem.notified_level ≤ 3 ∧
        min rem.notified_level 3 = rem.notified_level) ∧
    (∀ row ∈ store,
        rowToReminder row ∈ list_reminders store ∧
        (rowToReminder row).notified_level = clampLevel row.notified_level ∧
        clampLevel row.notified_level ≤ 3) := by
  have hclamp : ∀ x : Int, clampLevel x ≤ 3 := by
    intro x
    unfold clampLevel
    omega
  refine ⟨?_, ?_, ?_⟩
  · rw [list_reminders, List.length_map]
    exact (List.perm_insertionSort rowLe store).length_eq
  · intro rem hrem
    rw [list_reminders, List.mem_map] at hrem
    obtain ⟨row, _, rfl⟩ := hrem
    refine ⟨hclamp _, ?_⟩
    have h := hclamp row.notified_level
    show min (clampLevel row.notified_level) 3 = clampLevel row.notified_level
    omega
  · intro row hrow
    refine ⟨?_, rfl, hclamp _⟩
    rw [list_reminders, List.mem_map]
    exact ⟨row, (List.perm_insertionSort rowLe store).mem_iff.mpr hrow, rfl⟩

/-- Witness for C8: a stored level of 99 is listed, clamped to 3. -/
theorem invalid_persisted_level_clamped_witness :
    rowToReminder ⟨1, 0, "x", 99⟩ ∈
        list_reminders [⟨1, 0, "x", 99⟩, ⟨2, 5, "y", -7⟩] ∧
    (rowToReminder ⟨1, 0, "x", 99⟩).notified_level = clampLevel 99 ∧
    clampLevel 99 ≤ 3 :=
  (invalid_persisted_level_clamped [⟨1, 0, "x", 99⟩, ⟨2, 5, "y", -7⟩]).2.2
    ⟨1, 0, "x", 99⟩ (by decide)

/-- C7: the dispatcher drains the queue front to back, emitting exactly one
tray notification per queued item in insertion order; the listed reminders
(the detector's iteration order) are sorted by due date then id; and the
severity mapping is level 1 to Info, 2 to Warning, 3 to Error. -/
theorem dispatcher_order_and_severity (lang : UiLanguage)
    (queue : List BoundaryNotification) (store : List Row) :
    dispatch_notifications_to_tray lang queue =
      queue.map (fun n =>
        { title := notif_title lang n.level,
          body := notifBody lang n,
          kind := tray_kind_of_level n.level }) ∧
    List.Pairwise
      (fun a b => a.date < b.date ∨ (a.date = b.date ∧ a.id ≤ b.id))
      (list_reminders store) ∧
    tray_kind_of_level 1 = TrayNotificationKind.Info ∧
    tray_kind_of_level 2 = TrayNotificationKind.Warning ∧
    tray_kind_of_level 3 = TrayNotificationKind.Error := by
  refine ⟨?_, ?_, rfl, rfl, rfl⟩
  · induction queue with
    | nil => rfl
    | cons n rest ih => simp [dispatch_notifications_to_tray, ih]
  · have hs := List.sorted_insertionSort rowLe store
    rw [list_reminders]
    exact List.Pairwise.map rowToReminder (fun a b hab => hab) hs

/-- Per-row effect of one tick: id, date and note untouched, persisted
level never decreased. -/
def rowMono (a b : Row) : Prop :=
  b.id = a.id ∧ b.date = a.date ∧ b.note = a.note ∧
    a.notified_level ≤ b.notified_level

theorem rowMono_refl (a : Row) : rowMono a a := ⟨rfl, rfl, rfl, le_refl _⟩

theorem forall₂_rowMono_refl (l : List Row) : List.Forall₂ rowMono l l :=
  List.forall₂_same.mpr (fun a _ => rowMono_refl a)

theorem forall₂_rowMono_trans {a b c : List Row}
    (h1 : List.Forall₂ rowMono a b) (h2 : List.Forall₂ rowMono b c) :
    List.Forall₂ rowMono a c := by
  induction h1 generalizing c with
  | nil =>
    cases h2
    exact List.Forall₂.nil
  | cons hab _ ih =>
    cases h2 with
    | cons hbc h2t =>
      exact List.Forall₂.cons
        ⟨hbc.1.trans hab.1, hbc.2.1.trans hab.2.1, hbc.2.2.1.trans hab.2.2.1,
         hab.2.2.2.trans hbc.2.2.2⟩ (ih h2t)

/-- The listed snapshot agrees with the live store: a row and a snapshot
reminder with the same id share their date, and the reminder's level is
the row's clamped level.  This is what `list_reminders` guarantees when
ids are unique (they are: `id` is the table's INTEGER PRIMARY KEY). -/
def snapshotCoherent (rs : List Reminder) (store : List Row) : Prop :=
  ∀ rem ∈ rs, ∀ row ∈ store, row.id = rem.id →
    row.date = rem.date ∧ clampLevel row.notified_level = rem.notified_level

theorem coherent_tail (r : Reminder) (rest : List Reminder) (store : List Row)
    (hco : snapshotCoherent (r :: rest) store) : snapshotCoherent rest store :=
  fun rem hrem row hrow hid =>
    hco rem (List.mem_cons_of_mem _ hrem) row hrow hid

/-- Updating the head reminder's row keeps the snapshot coherent for the
remaining reminders, whose ids are different. -/
theorem coherent_after_set (r : Reminder) (rest : List Reminder)
    (store : List Row) (lvl : Nat)
    (hco : snapshotCoherent (r :: rest) store)
    (hnd : List.Pairwise (fun a b => a.id ≠ b.id) (r :: rest)) :
    snapshotCoherent rest (set_reminder_notified_level store r.id lvl) := by
  intro rem hrem row1 hrow1 hid1
  rw [set_reminder_notified_level] at hrow1
  obtain ⟨row, hrow, heq⟩ := List.mem_map.mp hrow1
  by_cases hid : row.id = r.id
  · exfalso
    rw [if_pos hid] at heq
    have hr1 : row1.id = r.id := by
      rw [← heq]
      exact hid
    exact (List.pairwise_cons.mp hnd).1 rem hrem (hr1.symm.trans hid1)
  · rw [if_neg hid] at heq
    subst heq
    exact hco rem (List.mem_cons_of_mem _ hrem) row hrow hid1

/-- A store with unique row ids is coherent with its own listing. -/
theorem list_reminders_coherent (store : List Row)
    (hnd : (store.map Row.id).Nodup) :
    snapshotCoherent (list_reminders store) store := by
  intro rem hrem row hrow hid
  rw [list_reminders, List.mem_map] at hrem
  obtain ⟨row0, hrow0, rfl⟩ := hrem
  have hrow0m : row0 ∈ store :=
    (List.perm_insertionSort rowLe store).mem_iff.mp hrow0
  have heq : row = row0 :=
    List.inj_on_of_nodup_map hnd hrow hrow0m hid
  subst heq
  exact ⟨rfl, rfl⟩

/-- Unique row ids make the listed snapshot's ids pairwise distinct. -/
theorem list_reminders_id_nodup (store : List Row)
    (hnd : (store.map Row.id).Nodup) :
    List.Pairwise (fun a b => a.id ≠ b.id) (list_reminders store) := by
  have h1 : List.Pairwise (fun a b : Row => a.id ≠ b.id) store :=
    List.pairwise_map.mp hnd
  have h2 : List.Pairwise (fun a b : Row => a.id ≠ b.id)
      (List.insertionSort rowLe store) :=
    ((List.perm_insertionSort rowLe store).pairwise_iff
      (fun h heq => h heq.symm)).mpr h1
  rw [list_reminders]
  exact List.Pairwise.map rowToReminder (fun a b hab => hab) h2

/-- Each detector pass can only raise a row's persisted level (and touches
nothing else in the row), given a coherent snapshot with distinct ids. -/
theorem runDetector_store_mono (today : Int) (persistOk : Int → Bool)
    (rs : List Reminder) :
    ∀ (store : List Row) (queue : List BoundaryNotification),
      snapshotCoherent rs store →
      List.Pairwise (fun a b => a.id ≠ b.id) rs →
      List.Forall₂ rowMono store
        (runDetector today persistOk rs store queue).1 := by
  induction rs with
  | nil =>
    intro store queue _ _
    exact forall₂_rowMono_refl store
  | cons r rest ih =>
    intro store queue hco hnd
    rw [runDetector_cons]
    have hstep : List.Forall₂ rowMono store
          (processReminder today persistOk store queue r).1 ∧
        snapshotCoherent rest (processReminder today persistOk store queue r).1 := by
      by_cases hc : urgency_level today r.date ≤ min r.notified_level 3
      · rw [processReminder_skip _ _ _ _ _ hc]
        exact ⟨forall₂_rowMono_refl store, coherent_tail r rest store hco⟩
      · push_neg at hc
        by_cases hok : persistOk r.id = true
        · rw [processReminder_cross_ok _ _ _ _ _ hc hok]
          constructor
          · rw [set_reminder_notified_level, List.forall₂_map_right_iff]
            refine List.forall₂_same.mpr ?_
            intro row hrow
            by_cases hid : row.id = r.id
            · rw [if_pos hid]
              refine ⟨rfl, rfl, rfl, ?_⟩
              have hcl := (hco r (List.mem_cons_self _ _) row hrow hid).2
              have hu := urgency_level_le_three today r.date
              unfold clampLevel at hcl
              show row.notified_level ≤
                ((min (urgency_level today r.date) 3 : Nat) : Int)
              omega
            · rw [if_neg hid]
              exact rowMono_refl row
          · exact coherent_after_set r rest store _ hco hnd
        · have hfail : persistOk r.id = false := by
            cases h : persistOk r.id
            · rfl
            · exact absurd h hok
          rw [processReminder_cross_fail _ _ _ _ _ hc hfail]
          exact ⟨forall₂_rowMono_refl store, coherent_tail r rest store hco⟩
    exact forall₂_rowMono_trans hstep.1
      (ih _ _ hstep.2 (List.pairwise_cons.mp hnd).2)

/-- C4: over any detector tick, for a store with unique row ids (the id
column is the table's PRIMARY KEY), every reminder's persisted
`notified_level` afterwards is at least its value before, and its id,
date and note are unchanged; hence across any sequence of ticks the
persisted level never decreases while the reminder exists. -/
theorem monotonic_persisted_state (today : Int) (persistOk : Int → Bool)
    (store : List Row) (queue : List BoundaryNotification) (store2 : List Row)
    (hnd : (store.map Row.id).Nodup)
    (h : (maybe_check_boundary_notifications today persistOk
        (some store) queue).1 = some store2) :
    List.Forall₂ rowMono store store2 := by
  have h2 : some (runDetector today persistOk (list_reminders store)
      store queue).1 = some store2 := h
  rw [Option.some_inj] at h2
  rw [← h2]
  exact runDetector_store_mono today persistOk (list_reminders store)
    store queue (list_reminders_coherent store hnd)
    (list_reminders_id_nodup store hnd)

/-- Witness for C4: a fresh reminder due today goes from level 0 to 3. -/
theorem monotonic_persisted_state_witness :
    List.Forall₂ rowMono [⟨1, 0, "x", 0⟩] [⟨1, 0, "x", 3⟩] :=
  monotonic_persisted_state 0 (fun _ => true) [⟨1, 0, "x", 0⟩] []
    [⟨1, 0, "x", 3⟩] (by decide) (by decide)

/-- A row is caught up when its clamped persisted level already reaches
its current urgency: exactly the condition under which the detector's
`continue` fires. -/
def rowCaughtUp (today : Int) (row : Row) : Prop :=
  urgency_level today row.date ≤ clampLevel row.notified_level

/-- A first pass in which every persistence succeeds leaves every row
caught up (given a coherent snapshot with pairwise distinct ids that
covers every not-yet-caught-up row). -/
theorem runDetector_establishes_caughtUp (today : Int) (rs : List Reminder) :
    ∀ (store : List Row) (queue : List BoundaryNotification),
      snapshotCoherent rs store →
      List.Pairwise (fun a b => a.id ≠ b.id) rs →
      (∀ row ∈ store, rowCaughtUp today row ∨ ∃ rem ∈ rs, rem.id = row.id) →
      ∀ row ∈ (runDetector today (fun _ => true) rs store queue).1,
        rowCaughtUp today row := by
  induction rs with
  | nil =>
    intro store queue _ _ hrows row hrow
    rcases hrows row hrow with h | ⟨rem, hrem, _⟩
    · exact h
    · exact absurd hrem (List.not_mem_nil rem)
  | cons r rest ih =>
    intro store queue hco hnd hrows
    rw [runDetector_cons]
    by_cases hc : urgency_level today r.date ≤ min r.notified_level 3
    · rw [processReminder_skip _ _ _ _ _ hc]
      refine ih store queue (coherent_tail r rest store hco)
        (List.pairwise_cons.mp hnd).2 ?_
      intro row hrow
      rcases hrows row hrow with h | ⟨rem, hrem, hidr⟩
      · exact Or.inl h
      · rcases List.mem_cons.mp hrem with heq | hrem2
        · subst heq
          left
          have hpair := hco rem (List.mem_cons_self _ _) row hrow hidr.symm
          unfold rowCaughtUp
          rw [hpair.1, hpair.2]
          exact le_trans hc (min_le_left _ _)
        · exact Or.inr ⟨rem, hrem2, hidr⟩
    · push_neg at hc
      rw [processReminder_cross_ok _ _ _ _ _ hc rfl]
      refine ih _ _ (coherent_after_set r rest store _ hco hnd)
        (List.pairwise_cons.mp hnd).2 ?_
      intro row1 hrow1
      rw [set_reminder_notified_level] at hrow1
      obtain ⟨row, hrow, heq⟩ := List.mem_map.mp hrow1
      by_cases hid : row.id = r.id
      · rw [if_pos hid] at heq
        subst heq
        left
        have hpair := hco r (List.mem_cons_self _ _) row hrow hid
        have hu := urgency_level_le_three today r.date
        show urgency_level today row.date ≤
          clampLevel ((min (urgency_level today r.date) 3 : Nat) : Int)
        rw [hpair.1]
        unfold clampLevel
        omega
      · rw [if_neg hid] at heq
        subst heq
        rcases hrows row hrow with h | ⟨rem, hrem, hidr⟩
        · exact Or.inl h
        · rcases List.mem_cons.mp hrem with heq2 | hrem2
          · subst heq2
            exact absurd hidr.symm hid
          · exact Or.inr ⟨rem, hrem2, hidr⟩

/-- When every row is caught up, the detector pass is a no-op. -/
theorem runDetector_noop (today : Int) (persistOk : Int → Bool)
    (rs : List Reminder) :
    ∀ (store : List Row) (queue : List BoundaryNotification),
      (∀ rem ∈ rs, urgency_level today rem.date ≤ min rem.notified_level 3) →
      runDetector today persistOk rs store queue = (store, queue) := by
  induction rs with
  | nil =>
    intro store queue _
    rfl
  | cons r rest ih =>
    intro store queue h
    rw [runDetector_cons,
      processReminder_skip _ _ _ _ _ (h r (List.mem_cons_self _ _))]
    exact ih store queue (fun rem hrem => h rem (List.mem_cons_of_mem _ hrem))

/-- Caught-up rows list into reminders the detector skips. -/
theorem caughtUp_list (today : Int) (store : List Row)
    (h : ∀ row ∈ store, rowCaughtUp today row) :
    ∀ rem ∈ list_reminders store,
      urgency_level today rem.date ≤ min rem.notified_level 3 := by
  intro rem hrem
  rw [list_reminders, List.mem_map] at hrem
  obtain ⟨row, hrow, rfl⟩ := hrem
  have hcu := h row ((List.perm_insertionSort rowLe store).mem_iff.mp hrow)
  unfold rowCaughtUp at hcu
  show urgency_level today row.date ≤ min (clampLevel row.notified_level) 3
  unfold clampLevel at hcu ⊢
  omega

/-- Unfolding of a tick on a present database handle. -/
theorem maybe_check_some (today : Int) (persistOk : Int → Bool)
    (store : List Row) (queue : List BoundaryNotification) :
    maybe_check_boundary_notifications today persistOk (some store) queue =
      (some (runDetector today persistOk (list_reminders store) store queue).1,
       (runDetector today persistOk (list_reminders store) store queue).2) := rfl

/-- C3: if a first tick runs with every persistence succeeding, a second
tick with the same `today` (whatever its persistence outcomes) changes
nothing: it enqueues zero new pending notifications and leaves the store
as the first tick left it.  Ids are unique per the table's PRIMARY KEY. -/
theorem detector_idempotent (today : Int) (store : List Row)
    (queue : List BoundaryNotification) (persistOk2 : Int → Bool)
    (hnd : (store.map Row.id).Nodup) :
    maybe_check_boundary_notifications today persistOk2
        (maybe_check_boundary_notifications today (fun _ => true)
          (some store) queue).1
        (maybe_check_boundary_notifications today (fun _ => true)
          (some store) queue).2 =
      ((maybe_check_boundary_notifications today (fun _ => true)
          (some store) queue).1,
       (maybe_check_boundary_notifications today (fun _ => true)
          (some store) queue).2) := by
  rw [maybe_check_some today (fun _ => true) store queue]
  rw [maybe_check_some today persistOk2]
  have hcu : ∀ row ∈ (runDetector today (fun _ => true)
      (list_reminders store) store queue).1, rowCaughtUp today row := by
    refine runDetector_establishes_caughtUp today (list_reminders store)
      store queue (list_reminders_coherent store hnd)
      (list_reminders_id_nodup store hnd) ?_
    intro row hrow
    refine Or.inr ⟨rowToReminder row, ?_, rfl⟩
    rw [list_reminders, List.mem_map]
    exact ⟨row, (List.perm_insertionSort rowLe store).mem_iff.mpr hrow, rfl⟩
  rw [runDetector_noop today persistOk2 _ _ _ (caughtUp_list today _ hcu)]

/-- Witness for C3: first tick announces levels 1..3, the second tick is
the identity on the resulting state. -/
theorem detector_idempotent_witness :
    maybe_check_boundary_notifications 0 (fun _ => true)
        (maybe_check_boundary_notifications 0 (fun _ => true)
          (some [⟨1, 0, "x", 0⟩]) []).1
        (maybe_check_boundary_notifications 0 (fun _ => true)
          (some [⟨1, 0, "x", 0⟩]) []).2 =
      ((maybe_check_boundary_notifications 0 (fun _ => true)
          (some [⟨1, 0, "x", 0⟩]) []).1,
       (maybe_check_boundary_notifications 0 (fun _ => true)
          (some [⟨1, 0, "x", 0⟩]) []).2) :=
  detector_idempotent 0 [⟨1, 0, "x", 0⟩] [] (fun _ => true) (by decide)
